import Mathlib

/-!
Shallow embedding of the lsaddr repository: the line chunker, the address
parser, the lsof/netstat decoders, the name splitter, the packet-filter
encoder, the filter builder and the lookup orchestration, together with
theorems settling the specification claims.

Go strings are modelled as Lean `String`s (lists of characters); Go's
`strings.Split`, `strings.Contains`, `strings.Join` and friends are given
executable Lean models below.
-/

/-- Model of Go `strings.Split` scanning: `goSplitAux sep fuel acc l` splits
`l` at every non-overlapping, left-to-right occurrence of `sep`, with `acc`
the (reversed) pending chunk.  The fuel argument makes the recursion
structural; `fuel = l.length` is always sufficient because every step with a
non-empty separator consumes at least one character. -/
def goSplitAux (sep : List Char) : Nat → List Char → List Char → List (List Char)
  | 0, acc, l => [acc.reverse ++ l]
  | _ + 1, acc, [] => [acc.reverse]
  | fuel + 1, acc, c :: rest =>
    if sep.isPrefixOf (c :: rest) then
      acc.reverse :: goSplitAux sep fuel [] (List.drop sep.length (c :: rest))
    else
      goSplitAux sep fuel (c :: acc) rest

/-- Model of Go `strings.Split(s, sep)`: for a non-empty separator, split at
every non-overlapping occurrence; for the empty separator Go explodes the
string into its characters. -/
def goSplit (s sep : String) : List String :=
  if sep.data.isEmpty then s.data.map (fun c => String.mk [c])
  else (goSplitAux sep.data s.data.length [] s.data).map String.mk

/-- Helper for `goContains`: decides whether `sub` occurs inside `l`. -/
def containsSub (sub : List Char) : List Char → Bool
  | [] => sub.isEmpty
  | c :: rest => sub.isPrefixOf (c :: rest) || containsSub sub rest

/-- Model of Go `strings.Contains(s, sub)`. -/
def goContains (s sub : String) : Bool := containsSub sub.data s.data

/-- Model of Go `strings.ToLower` (all the strings involved here are ASCII). -/
def goToLower (s : String) : String := String.mk (s.data.map Char.toLower)

/-- Model of Go `fmt`'s `%s` rendering of a `[]string` value: the elements
joined by single spaces inside square brackets. -/
def goFormatSlice (l : List String) : String :=
  "[" ++ String.intercalate " " l ++ "]"

/-- ChunkLine, translated from `lookup/internal/utils.go`: split `line` on
`sep`, drop the empty fields, and return an error when fewer than `min`
fields survive.  Note the source formats the `chunks` slice (not the raw
line) into the `line "%s"` placeholder of the error message. -/
def ChunkLine (line sep : String) (min : Nat) : List String × Option String :=
  let items := goSplit line sep
  let chunks := items.foldl (fun acc v => if v = "" then acc else acc ++ [v]) []
  let n := chunks.length
  if n < min then
    (chunks, some ("unable to chunk line: expected at least " ++ toString min ++
      " items, found " ++ toString n ++ ": line \"" ++ goFormatSlice chunks ++ "\""))
  else
    (chunks, none)

/-- Open network file record, per spec §3 and the lsof decoder's field list
(COMMAND, PID, USER, FD, TYPE, DEVICE, NODE, NAME, optional STATE).  Each
field's Go zero value is the empty string. -/
structure OpenFile where
  Command : String := ""
  Pid : String := ""
  User : String := ""
  Fd : String := ""
  «Type» : String := ""
  Device : String := ""
  Node : String := ""
  Name : String := ""
  State : String := ""
  deriving DecidableEq

/-- Modelled from the spec: the typed network address value returned by the
name splitter (the `addr` type of `lookup/internal/lsof.go`, which is missing
from src/).  Per spec §3 and the §8 fixtures it carries a canonical address
string that round-trips exactly and a network kind string. -/
structure GoAddr where
  net : String := ""
  addr : String := ""
  deriving DecidableEq

/-- Model of the Go `net.Addr` method `String()`: the canonical address text. -/
def GoAddr.str (a : GoAddr) : String := a.addr

/-- Model of the Go `net.Addr` method `Network()`: the network kind. -/
def GoAddr.network (a : GoAddr) : String := a.net

/-- Modelled from the spec: `OpenFile.UnmarshalName` (spec §4.3; the function
lives in `lookup/internal/lsof.go`, missing from src/ — only its test is
present).  The raw `Name` is split on the arrow token `"->"`; the first chunk
is the source address and the second chunk, when present, the destination;
both carry the lowercased `Node` as network kind, and an absent destination
leaves the empty/unset address. -/
def OpenFile.unmarshalName (f : OpenFile) : GoAddr × GoAddr :=
  let chunks := goSplit f.Name "->"
  let network := goToLower f.Node
  ({ net := network, addr := chunks.headD "" },
   { net := network, addr := chunks.getD 1 "" })

/-- ParseNetAddr, translated from `lookup/internal/utils.go`.  The source
lower-cases the network kind and dispatches: a kind containing "tcp" goes to
`net.ResolveTCPAddr`, a kind containing "udp" to `net.ResolveUDPAddr`, and
anything else is an "unsupported network" error naming the (lowercased)
kind.  The two resolvers are Go-standard-library collaborators and are
passed as parameters; both receive the lowercased kind, as in the source. -/
def ParseNetAddr (resolveTCP resolveUDP : String → String → Except String GoAddr)
    (network addr : String) : Except String GoAddr :=
  let n := goToLower network
  if goContains n "tcp" then resolveTCP n addr
  else if goContains n "udp" then resolveUDP n addr
  else Except.error ("unsupported network " ++ n)

/-- Resolver stand-in used only by witnesses: tags the address with the kind. -/
def rawResolve (n a : String) : Except String GoAddr :=
  Except.ok { net := n, addr := a }

/-- Modelled from the spec: `UnmarshalLsofLine` (spec §4.4; the lsof decoder
of `lookup/internal/lsof.go` is missing from src/ — only its test is
present).  The line is chunked on spaces with the nine mandatory columns
COMMAND PID USER FD TYPE DEVICE SIZE-OFF NODE NAME as the required minimum;
fields map positionally (SIZE-OFF, chunk 6, is not stored) and the optional
trailing STATE is present exactly when a tenth field exists, so the
field-count detection decides STATE without shifting the other columns. -/
def UnmarshalLsofLine (line : String) : Except String OpenFile :=
  match ChunkLine line " " 9 with
  | (_, some e) => Except.error e
  | (chunks, none) =>
    Except.ok {
      Command := chunks.getD 0 "",
      Pid := chunks.getD 1 "",
      User := chunks.getD 2 "",
      Fd := chunks.getD 3 "",
      «Type» := chunks.getD 4 "",
      Device := chunks.getD 5 "",
      Node := chunks.getD 7 "",
      Name := chunks.getD 8 "",
      State := chunks.getD 9 "" }

/-- Model of Go `strings.Trim(s, string(c))`: remove `c` from both ends. -/
def goTrimChar (s : String) (c : Char) : String :=
  String.mk (((s.data.dropWhile (· == c)).reverse.dropWhile (· == c)).reverse)

/-- Model of `ScanLines` from `lookup/internal/utils.go` composed with Go's
`bufio.Scanner` line splitting: the input is cut at every newline, a trailing
newline produces no final empty token, and each token is trimmed of carriage
returns (the source also trims "\n", a no-op on scanner tokens). -/
def goScanLines (s : String) : List String :=
  if s.data = [] then []
  else
    let parts := goSplit s "\n"
    let parts := if s.data.getLast? = some '\n' then parts.dropLast else parts
    parts.map (fun l => goTrimChar l '\r')

/-- Modelled from the spec: one netstat data row (spec §4.5; the netstat
decoder of `lookup/internal/netstat.go` is missing from src/ — only its test
is present).  A candidate row is chunked on spaces with minimum 4, the
smallest valid row shape (a UDP row has no STATE column); a row whose PROTO
column names neither a tcp nor a udp protocol is not a well-formed data row
and is rejected.  The local and foreign addresses are joined into the
OpenFile's directional Name, the PID is the final column, and STATE is
present exactly when five columns are. -/
def UnmarshalNetstatLine (line : String) : Except String OpenFile :=
  match ChunkLine line " " 4 with
  | (_, some e) => Except.error e
  | (chunks, none) =>
    let proto := chunks.getD 0 ""
    if goContains (goToLower proto) "tcp" || goContains (goToLower proto) "udp" then
      Except.ok {
        Node := proto,
        Name := chunks.getD 1 "" ++ "->" ++ chunks.getD 2 "",
        State := if 5 ≤ chunks.length then chunks.getD 3 "" else "",
        Pid := chunks.getLastD "" }
    else
      Except.error ("unrecognized protocol: " ++ proto)

/-- Sets the Command of the most recent record, used when a bracket
annotation line follows its data row; a no-op on an empty record list. -/
def setLastCommand (recs : List OpenFile) (c : String) : List OpenFile :=
  match recs with
  | [] => []
  | _ :: _ => recs.dropLast ++ [{ recs.getLastD {} with Command := c }]

/-- True when the line (after trimming spaces) is a bracket annotation such
as `[svchost.exe]`. -/
def isBracketLine (line : String) : Bool :=
  match (goTrimChar line ' ').data with
  | '[' :: _ => true
  | _ => false

/-- The executable name carried by a bracket annotation line. -/
def bracketName (line : String) : String :=
  String.mk (((goTrimChar line ' ').data.drop 1).dropLast)

/-- Modelled from the spec: per-line classification of the netstat decoder
(spec §4.5): skip blank lines, the "Active Connections" banner and
ownership-unavailable notices; a bracket annotation line backfills the
owning command of the row it follows; every other line contributes a record
exactly when it is a well-formed data row. -/
def netstatStep (acc : List OpenFile) (line : String) : List OpenFile :=
  if line = "" then acc
  else if goContains line "Active Connections" then acc
  else if isBracketLine line then setLastCommand acc (bracketName line)
  else if goContains line "Can not obtain ownership information" then acc
  else
    match UnmarshalNetstatLine line with
    | Except.error _ => acc
    | Except.ok f => acc ++ [f]

/-- Modelled from the spec: `DecodeNetstatOutput` scans the raw output line
by line and folds each line through the classification above. -/
def DecodeNetstatOutput (s : String) : List OpenFile :=
  (goScanLines s).foldl netstatStep []

/-- The 10-line netstat example block of the test corpus (banner, header,
two bracket annotations, one ownership notice, blank lines, three TCP rows
and one UDP row without a STATE column). -/
def netstatExample : String :=
  "\nActive Connections\n\n" ++
  "  Proto  Local Address          Foreign Address        State           PID\n" ++
  "  TCP    0.0.0.0:135            0.0.0.0:0              LISTENING       748\n" ++
  "  RpcSs\n" ++
  " [svchost.exe]\n" ++
  "  TCP    0.0.0.0:445            0.0.0.0:0              LISTENING       4\n" ++
  " Can not obtain ownership information\n" ++
  "  TCP    0.0.0.0:5357           0.0.0.0:0              LISTENING       4\n" ++
  " [svchost.exe]\n" ++
  "  UDP    [::1]:62261            *:*                                    1036\n"

/-- NetFile, translated from `lookup/lookup.go`: the public record with the
owning command and the typed source and destination addresses. -/
structure NetFile where
  Command : String := ""
  Src : GoAddr := {}
  Dst : GoAddr := {}
  deriving DecidableEq

/-- Hosts, translated from `lookup/lookup.go`: the list of source addresses
and the list of destination addresses of a connection list. -/
def Hosts (ff : List NetFile) : List GoAddr × List GoAddr :=
  (ff.map NetFile.Src, ff.map NetFile.Dst)

/-- Modelled from the spec: address deduplication of the packet-filter
encoder (spec §4.8; the encoder's implementation file is missing from
src/).  `seen` holds the canonical strings already emitted; the first
occurrence of each canonical address string is kept, later ones dropped. -/
def dedupAux (seen : List String) : List GoAddr → List GoAddr
  | [] => []
  | a :: rest =>
    if seen.contains a.str then dedupAux seen rest
    else a :: dedupAux (a.str :: seen) rest

/-- Deduplicate a list of addresses by canonical address string, keeping
first appearances in order. -/
def dedupByStr (l : List GoAddr) : List GoAddr := dedupAux [] l

/-- Modelled from the spec: splitting a canonical address string into host
and port — `[host]:port` for the bracketed IPv6 form, otherwise the text
before/after the last colon (Go `net.SplitHostPort` on canonical forms). -/
def splitHostPort (s : String) : String × String :=
  match s.data with
  | '[' :: _ =>
    match goSplit (String.mk (s.data.drop 1)) "]:" with
    | [h, p] => (h, p)
    | _ => (s, "")
  | _ =>
    let parts := goSplit s ":"
    (String.intercalate ":" parts.dropLast, parts.getLastD "")

/-- Modelled from the spec: one `host <addr> and port <port>` term of the
packet-filter expression. -/
def bpfTerm (a : GoAddr) : String :=
  "host " ++ (splitHostPort a.str).1 ++ " and port " ++ (splitHostPort a.str).2

/-- Modelled from the spec: the packet-filter (BPF) encoder (spec §4.8; the
encoder implementation is missing from src/ — only `encoder.NewBPF`'s test
is present).  All source then destination addresses are deduplicated by
canonical string and the unique host+port pairs joined with " or ",
terminated by a newline. -/
def EncodeBPF (ff : List NetFile) : String :=
  let hp := Hosts ff
  let addrs := dedupByStr (hp.1 ++ hp.2)
  String.intercalate " or " (addrs.map bpfTerm) ++ "\n"

/-- Modelled from the spec: the `netFiles0` encoder-test fixture (its
defining test file is missing from src/): two connections with duplicate
addresses whose unique (host, port) pairs are (192.168.0.61, 54104) and
(::1, 60051), in that order of first appearance. -/
def netFiles0 : List NetFile :=
  [{ Command := "test0", Src := { net := "tcp", addr := "192.168.0.61:54104" },
     Dst := { net := "tcp", addr := "[::1]:60051" } },
   { Command := "test1", Src := { net := "tcp", addr := "192.168.0.61:54104" },
     Dst := { net := "tcp", addr := "[::1]:60051" } }]

/-- The OpenFile-to-NetFile mapping performed inside OpenNetFiles in
`lookup/lookup.go`: keep the command and resolve Name/Node into typed
source and destination addresses via UnmarshalName. -/
def toNetFile (v : OpenFile) : NetFile :=
  { Command := v.Command, Src := v.unmarshalName.1, Dst := v.unmarshalName.2 }

/-- OpenNetFiles, translated from `lookup/lookup.go`.  The two effectful
stages — `buildRgx` (filter build and regexp compilation) and `openNetFiles`
(external tool plus decode, consuming the compiled pattern) — are passed as
parameters of an abstract pattern type.  On a stage error the source returns
the empty `[]NetFile{}` slice together with that error; on success every
decoded OpenFile is mapped to a NetFile and the error is nil (`none`). -/
def OpenNetFiles (P : Type) (buildRgx : Except String P)
    (openNet : P → Except String (List OpenFile)) : List NetFile × Option String :=
  match buildRgx with
  | Except.error e => ([], some e)
  | Except.ok rgx =>
    match openNet rgx with
    | Except.error e => ([], some e)
    | Except.ok ll => (ll.map toNetFile, none)

/-- A concrete successful lookup stage used only by the C8 witness. -/
def okOneRow : Unit → Except String (List OpenFile) :=
  fun _ => Except.ok [{ Command := "Spotify" }]

/-- Model of Go `strings.HasSuffix(s, sfx)`. -/
def goHasSuffix (s sfx : String) : Bool := sfx.data.isSuffixOf s.data

/-- Model of Go `strings.TrimRight(s, string(c))`: remove trailing `c`s. -/
def goTrimRightChar (s : String) (c : Char) : String :=
  String.mk ((s.data.reverse.dropWhile (· == c)).reverse)

/-- prepareNFExpr, translated from the darwin filter builder (lsof.go).  Its
three effectful collaborators are parameters: `statOk` is whether `os.Stat`
succeeds on the selector, `appName` reads the bundle's Info.plist and
extracts the CFBundleExecutable name, and `pids` is the pgrep lookup
(returning the empty list when pgrep fails or finds nothing).  A selector
that is not an existing path, an existing path not ending in ".app" after
trimming trailing slashes, a failing metadata read, or an empty PID set all
fall back to the unmodified selector; otherwise the PIDs are joined with
"|".  The function returns no error to its caller in any case. -/
def prepareNFExpr (statOk : String → Bool) (appName : String → Except String String)
    (pids : String → List String) (s : String) : String :=
  if statOk s = false then s
  else
    let path := goTrimRightChar s '/'
    if goHasSuffix path ".app" = false then s
    else
      match appName path with
      | Except.error _ => s
      | Except.ok name =>
        let ps := pids name
        if ps.length = 0 then s
        else String.intercalate "|" ps

theorem foldl_keep_nonempty (l : List String) :
    ∀ acc : List String,
      l.foldl (fun acc v => if v = "" then acc else acc ++ [v]) acc =
        acc ++ l.filter (fun v => v != "") := by
  induction l with
  | nil => intro acc; simp
  | cons x xs ih =>
    intro acc
    by_cases hx : x = ""
    · simp [List.foldl_cons, hx, ih]
    · simp [List.foldl_cons, hx, ih, List.append_assoc]

/-- C7: for every input line, separator and minimum count, ChunkLine returns
exactly the non-empty fields of the separator-split of the line, in order
(so no returned field is the empty string), and it reports an error exactly
when the number of surviving fields is strictly below the minimum. -/
theorem chunkLine_fields_and_error (line sep : String) (min : Nat) :
    (ChunkLine line sep min).1 = (goSplit line sep).filter (fun v => v != "") ∧
    (∀ v, v ∈ (ChunkLine line sep min).1 → v ≠ "") ∧
    ((ChunkLine line sep min).2 ≠ none ↔
      ((goSplit line sep).filter (fun v => v != "")).length < min) := by
  have hfold := foldl_keep_nonempty (goSplit line sep) []
  simp only [List.nil_append] at hfold
  unfold ChunkLine
  simp only [hfold]
  refine ⟨?_, ?_, ?_⟩
  · split <;> rfl
  · intro v hv
    have hv' : v ∈ (goSplit line sep).filter (fun v => v != "") := by
      split at hv <;> exact hv
    simpa using (List.mem_filter.mp hv').2
  · split <;> simp_all

/-- Witness for C7 at a concrete line: `"a  b c"` split on a single space
with minimum 2 keeps exactly the fields `["a", "b", "c"]` and no error. -/
theorem chunkLine_fields_and_error_witness :
    (ChunkLine "a  b c" " " 2).1 = ["a", "b", "c"] ∧
    ¬ ((ChunkLine "a  b c" " " 2).2 ≠ none) := by
  have h := chunkLine_fields_and_error "a  b c" " " 2
  exact ⟨h.1.trans (by decide), fun hne => absurd (h.2.2.mp hne) (by decide)⟩

theorem containsSub_iff_occurs (sub l : List Char) :
    containsSub sub l = true ↔ sub <:+: l := by
  induction l with
  | nil => simp [containsSub, List.isEmpty_iff]
  | cons c rest ih =>
    simp [containsSub, List.infix_cons_iff, ih]

theorem goSplitAux_no_occurrence (sep : List Char) :
    ∀ fuel acc (l : List Char), ¬ sep <:+: l →
      goSplitAux sep fuel acc l = [acc.reverse ++ l] := by
  intro fuel
  induction fuel with
  | zero => intro acc l _; rfl
  | succ fuel ih =>
    intro acc l h
    match l with
    | [] => simp [goSplitAux]
    | c :: rest =>
      have hp : sep.isPrefixOf (c :: rest) = false := by
        cases hb : sep.isPrefixOf (c :: rest)
        · rfl
        · exact absurd (List.isPrefixOf_iff_prefix.mp hb).isInfix h
      rw [goSplitAux, hp]
      simp only [Bool.false_eq_true, if_false]
      rw [ih (c :: acc) rest (fun hi => h (List.infix_cons hi))]
      simp

theorem goSplitAux_ne_nil (sep : List Char) :
    ∀ fuel acc l, goSplitAux sep fuel acc l ≠ [] := by
  intro fuel
  induction fuel with
  | zero => intro acc l; simp [goSplitAux]
  | succ fuel ih =>
    intro acc l
    match l with
    | [] => simp [goSplitAux]
    | c :: rest =>
      rw [goSplitAux]
      split
      · simp
      · exact ih _ _

theorem intercalate_cons_ne_nil {α : Type} (sep x : List α) {ys : List (List α)}
    (h : ys ≠ []) :
    List.intercalate sep (x :: ys) = x ++ sep ++ List.intercalate sep ys := by
  match ys with
  | [] => exact absurd rfl h
  | y :: zs =>
    simp [List.intercalate, List.intersperse, List.append_assoc]

theorem goSplitAux_join (sep : List Char) (hsep : sep ≠ []) :
    ∀ fuel acc l, l.length ≤ fuel →
      List.intercalate sep (goSplitAux sep fuel acc l) = acc.reverse ++ l := by
  intro fuel
  induction fuel with
  | zero =>
    intro acc l hl
    have hnil : l = [] := List.length_eq_zero.mp (Nat.le_zero.mp hl)
    subst hnil
    simp [goSplitAux, List.intercalate, List.intersperse]
  | succ fuel ih =>
    intro acc l hl
    match l with
    | [] => simp [goSplitAux, List.intercalate, List.intersperse]
    | c :: rest =>
      rw [goSplitAux]
      split
      case isTrue hp =>
        obtain ⟨t, ht⟩ := List.isPrefixOf_iff_prefix.mp hp
        have hdrop : List.drop sep.length (c :: rest) = t := by
          rw [← ht]; exact List.drop_left _ _
        have hsl : 1 ≤ sep.length := by
          cases sep
          · exact absurd rfl hsep
          · simp
        have hlt : sep.length + t.length = rest.length + 1 := by
          have : (sep ++ t).length = (c :: rest).length := by rw [ht]
          simpa [List.length_append] using this
        have hlen : t.length ≤ fuel := by
          simp only [List.length_cons] at hl
          omega
        rw [hdrop, intercalate_cons_ne_nil sep _ (goSplitAux_ne_nil sep fuel [] t),
          ih [] t hlen]
        rw [← ht]
        simp
      case isFalse =>
        have hlen : rest.length ≤ fuel := by
          simp only [List.length_cons] at hl
          omega
        rw [ih (c :: acc) rest hlen]
        simp

theorem string_eq_of_data {a b : String} (h : a.data = b.data) : a = b :=
  congrArg String.mk h

theorem goSplit_of_not_contains (s sep : String) (hsep : sep ≠ "")
    (h : goContains s sep = false) : goSplit s sep = [s] := by
  have hd : sep.data ≠ [] := by
    intro hnil
    exact hsep (string_eq_of_data hnil)
  have hni : ¬ sep.data <:+: s.data := by
    intro hi
    have htrue := (containsSub_iff_occurs sep.data s.data).mpr hi
    rw [goContains] at h
    rw [htrue] at h
    exact Bool.noConfusion h
  unfold goSplit
  rw [if_neg (by simpa [List.isEmpty_iff] using hd)]
  rw [goSplitAux_no_occurrence sep.data _ [] s.data hni]
  rfl

theorem goSplit_two_chunks {s sep a b : String} (hsep : sep ≠ "")
    (h : goSplit s sep = [a, b]) : a ++ sep ++ b = s := by
  have hd : sep.data ≠ [] := by
    intro hnil
    exact hsep (string_eq_of_data hnil)
  unfold goSplit at h
  rw [if_neg (by simpa [List.isEmpty_iff] using hd)] at h
  have hj := goSplitAux_join sep.data hd s.data.length [] s.data (Nat.le_refl _)
  match hL : goSplitAux sep.data s.data.length [] s.data with
  | [] => rw [hL] at h; simp at h
  | [x] => rw [hL] at h; simp at h
  | x :: y :: z :: rest => rw [hL] at h; simp at h
  | [x, y] =>
    rw [hL] at h
    simp only [List.map_cons, List.map_nil, List.cons.injEq, and_true] at h
    obtain ⟨hx, hy⟩ := h
    rw [hL] at hj
    rw [intercalate_cons_ne_nil sep.data x (by simp)] at hj
    simp only [List.reverse_nil, List.nil_append, List.intercalate,
      List.intersperse, List.flatten_cons, List.flatten_nil, List.append_nil] at hj
    apply string_eq_of_data
    rw [← hx, ← hy]
    simpa using hj

/-- C1: UnmarshalName splits an arrow-containing Name into source and
destination substrings (recombining them with the arrow restores the Name),
tags both with the lowercased Node network kind, and for an arrow-free Name
parses only the source, leaving the destination address empty; the concrete
spec fixtures, including the bracketed-IPv6 round-trip, hold exactly. -/
theorem unmarshalName_splits :
    (∀ f : OpenFile,
      (f.unmarshalName.1.network = goToLower f.Node ∧
       f.unmarshalName.2.network = goToLower f.Node) ∧
      (∀ a b : String, goSplit f.Name "->" = [a, b] →
        f.unmarshalName.1.str = a ∧ f.unmarshalName.2.str = b ∧
        a ++ "->" ++ b = f.Name) ∧
      (goContains f.Name "->" = false →
        f.unmarshalName.1.str = f.Name ∧ f.unmarshalName.2.str = "")) ∧
    (({ Node := "TCP", Name := "127.0.0.1:49161->127.0.01:9090" } :
        OpenFile).unmarshalName.1.str = "127.0.0.1:49161" ∧
     ({ Node := "TCP", Name := "127.0.0.1:49161->127.0.01:9090" } :
        OpenFile).unmarshalName.2.str = "127.0.01:9090" ∧
     ({ Node := "TCP", Name := "127.0.0.1:49161->127.0.01:9090" } :
        OpenFile).unmarshalName.1.network = "tcp") ∧
    (({ Node := "TCP", Name := "127.0.0.1:5432" } :
        OpenFile).unmarshalName.1.str = "127.0.0.1:5432" ∧
     ({ Node := "TCP", Name := "127.0.0.1:5432" } :
        OpenFile).unmarshalName.2.str = "") ∧
    (({ Node := "TCP",
        Name := "[fe80:c::d5d5:601e:981b:c79d]:1024->[fe80:c::f9b9:5ecb:eeca:58e9]:1024" } :
        OpenFile).unmarshalName.1.str = "[fe80:c::d5d5:601e:981b:c79d]:1024" ∧
     ({ Node := "TCP",
        Name := "[fe80:c::d5d5:601e:981b:c79d]:1024->[fe80:c::f9b9:5ecb:eeca:58e9]:1024" } :
        OpenFile).unmarshalName.2.str = "[fe80:c::f9b9:5ecb:eeca:58e9]:1024") := by
  refine ⟨fun f => ⟨⟨rfl, rfl⟩, fun a b h => ?_, fun h => ?_⟩, by decide, by decide, by decide⟩
  · refine ⟨?_, ?_, goSplit_two_chunks (by decide) h⟩
    · simp [OpenFile.unmarshalName, GoAddr.str, h]
    · simp [OpenFile.unmarshalName, GoAddr.str, h]
  · have hone := goSplit_of_not_contains f.Name "->" (by decide) h
    constructor
    · simp [OpenFile.unmarshalName, GoAddr.str, hone]
    · simp [OpenFile.unmarshalName, GoAddr.str, hone]

/-- Witness for C1: the general splitting clause applied to a concrete
directional UDP name. -/
theorem unmarshalName_splits_witness :
    goSplit "192.168.0.61:50940->192.168.0.2:53" "->" =
      ["192.168.0.61:50940", "192.168.0.2:53"] ∧
    ({ Node := "UDP", Name := "192.168.0.61:50940->192.168.0.2:53" } :
      OpenFile).unmarshalName.1.str = "192.168.0.61:50940" ∧
    ({ Node := "UDP", Name := "192.168.0.61:50940->192.168.0.2:53" } :
      OpenFile).unmarshalName.2.str = "192.168.0.2:53" :=
  ⟨by decide,
   ((unmarshalName_splits.1 _).2.1 "192.168.0.61:50940" "192.168.0.2:53" (by decide)).1,
   ((unmarshalName_splits.1 _).2.1 "192.168.0.61:50940" "192.168.0.2:53" (by decide)).2.1⟩

/-- C2: at the failing input below, ChunkLine's error message renders the
chunked fields (`[a b]`), not the original line (`a  b`, with two spaces): it
names the expected minimum and the found count, but the original line's text
does not occur in the message. -/
theorem chunkLine_error_line_eval :
    (ChunkLine "a  b" " " 3).2 =
      some "unable to chunk line: expected at least 3 items, found 2: line \"[a b]\"" ∧
    goContains
      "unable to chunk line: expected at least 3 items, found 2: line \"[a b]\""
      "a  b" = false := by
  decide

/-- C4 counterexample: the claim's example is wrong about the code — the
lowercased form "sctp" of the kind "SCTP" does not contain the substring
"tcp" (its three-letter windows are "sct" and "ctp"), so ParseNetAddr fails
on "SCTP" with the unsupported-network error instead of resolving it as a
TCP address. -/
theorem parseNetAddr_sctp_counterexample :
    goToLower "SCTP" = "sctp" ∧
    goContains "sctp" "tcp" = false ∧
    ParseNetAddr rawResolve rawResolve "SCTP" "1.2.3.4:80" =
      Except.error "unsupported network sctp" :=
  ⟨by decide, by decide, rfl⟩

/-- C4 (amended): ParseNetAddr on a kind whose lowercased form contains
neither "tcp" nor "udp" — for example "SCTP", whose lowercased form "sctp"
contains neither, or "x25" — fails with an "unsupported network" error
naming the offending (lowercased) kind and never silently defaults to a
network; if the lowercased kind contains "tcp" it resolves as a TCP address,
and if it contains "udp" (and not "tcp") as a UDP address. -/
theorem parseNetAddr_dispatch (rt ru : String → String → Except String GoAddr)
    (network addr : String) :
    (goContains (goToLower network) "tcp" = false →
      goContains (goToLower network) "udp" = false →
      ParseNetAddr rt ru network addr =
        Except.error ("unsupported network " ++ goToLower network)) ∧
    (goContains (goToLower network) "tcp" = true →
      ParseNetAddr rt ru network addr = rt (goToLower network) addr) ∧
    (goContains (goToLower network) "tcp" = false →
      goContains (goToLower network) "udp" = true →
      ParseNetAddr rt ru network addr = ru (goToLower network) addr) ∧
    (goContains (goToLower "SCTP") "tcp" = false ∧
     goContains (goToLower "SCTP") "udp" = false ∧
     goContains (goToLower "x25") "tcp" = false ∧
     goContains (goToLower "x25") "udp" = false ∧
     goContains (goToLower "TCP") "tcp" = true ∧
     goContains (goToLower "UDP") "udp" = true) := by
  refine ⟨fun h1 h2 => ?_, fun h1 => ?_, fun h1 h2 => ?_, by decide⟩
  · simp [ParseNetAddr, h1, h2]
  · simp [ParseNetAddr, h1]
  · simp [ParseNetAddr, h1, h2]

/-- Witness for C4: the unsupported kind "x25" errors naming the kind, the
kind "TCP" resolves through the TCP resolver, and "UDP" through the UDP
resolver. -/
theorem parseNetAddr_dispatch_witness :
    ParseNetAddr rawResolve rawResolve "x25" "1.2.3.4:80" =
      Except.error "unsupported network x25" ∧
    ParseNetAddr rawResolve rawResolve "TCP" "1.2.3.4:80" =
      rawResolve "tcp" "1.2.3.4:80" ∧
    ParseNetAddr rawResolve rawResolve "UDP" "1.2.3.4:53" =
      rawResolve "udp" "1.2.3.4:53" :=
  ⟨((parseNetAddr_dispatch rawResolve rawResolve "x25" "1.2.3.4:80").1
      (by decide) (by decide)).trans rfl,
   ((parseNetAddr_dispatch rawResolve rawResolve "TCP" "1.2.3.4:80").2.1
      (by decide)).trans rfl,
   ((parseNetAddr_dispatch rawResolve rawResolve "UDP" "1.2.3.4:53").2.2.1
      (by decide) (by decide)).trans rfl⟩

/-- C10: when the lowercased network kind contains both "tcp" and "udp", the
tcp case of ParseNetAddr's switch is tested first, so the kind
deterministically resolves through the TCP resolver. -/
theorem parseNetAddr_tcp_first (rt ru : String → String → Except String GoAddr)
    (network addr : String)
    (h1 : goContains (goToLower network) "tcp" = true)
    (_h2 : goContains (goToLower network) "udp" = true) :
    ParseNetAddr rt ru network addr = rt (goToLower network) addr := by
  simp [ParseNetAddr, h1]

/-- Witness for C10 at the kind "tcpudp", which contains both substrings. -/
theorem parseNetAddr_tcp_first_witness :
    goContains (goToLower "tcpudp") "tcp" = true ∧
    goContains (goToLower "tcpudp") "udp" = true ∧
    ParseNetAddr rawResolve rawResolve "tcpudp" "h:1" =
      Except.ok { net := "tcpudp", addr := "h:1" } :=
  ⟨by decide, by decide,
   (parseNetAddr_tcp_first rawResolve rawResolve "tcpudp" "h:1"
     (by decide) (by decide)).trans rfl⟩

set_option maxRecDepth 4096 in
/-- C6: the Spotify lsof fixture line (which carries the optional trailing
STATE token) decodes to exactly the expected OpenFile, and the STATE-absent
postgres/UDP fixture line decodes with an empty State and unshifted columns,
so the two field counts cause no off-by-one misassignment. -/
theorem unmarshalLsofLine_fixture :
    UnmarshalLsofLine
      "Spotify   11778 danielmorandini  128u  IPv4 0x25c5bf09993eff03      0t0  TCP 192.168.0.61:51291->35.186.224.47:https (ESTABLISHED)" =
      Except.ok {
        Command := "Spotify", Pid := "11778", User := "danielmorandini",
        Fd := "128u", «Type» := "IPv4", Device := "0x25c5bf09993eff03",
        Node := "TCP", Name := "192.168.0.61:51291->35.186.224.47:https",
        State := "(ESTABLISHED)" } ∧
    UnmarshalLsofLine
      "postgres    676 danielmorandini   10u  IPv6 0x25c5bf0997ca88e3      0t0  UDP [::1]:60051->[::1]:60051" =
      Except.ok {
        Command := "postgres", Pid := "676", User := "danielmorandini",
        Fd := "10u", «Type» := "IPv6", Device := "0x25c5bf0997ca88e3",
        Node := "UDP", Name := "[::1]:60051->[::1]:60051", State := "" } :=
  ⟨rfl, rfl⟩

set_option maxRecDepth 8192 in
/-- C5: decoding the netstat example block yields exactly 4 open-file
records, one per genuine data row (PIDs 748, 4, 4 and 1036, the last being
the UDP row with no STATE column), with the banner, header, bracket
annotation, ownership-notice and blank lines contributing none. -/
theorem decodeNetstat_example :
    (DecodeNetstatOutput netstatExample).length = 4 ∧
    (DecodeNetstatOutput netstatExample).map OpenFile.Pid = ["748", "4", "4", "1036"] ∧
    (DecodeNetstatOutput netstatExample).map OpenFile.Node = ["TCP", "TCP", "TCP", "UDP"] :=
  ⟨rfl, rfl, rfl⟩

theorem dedupAux_sublist :
    ∀ (l : List GoAddr) (seen : List String), (dedupAux seen l).Sublist l := by
  intro l
  induction l with
  | nil => intro seen; simp [dedupAux]
  | cons a rest ih =>
    intro seen
    rw [dedupAux]
    split
    · exact (ih seen).cons a
    · exact (ih (a.str :: seen)).cons₂ a

theorem dedupAux_nodup :
    ∀ (l : List GoAddr) (seen : List String),
      ((dedupAux seen l).map GoAddr.str).Nodup ∧
      ∀ s, s ∈ (dedupAux seen l).map GoAddr.str → s ∉ seen := by
  intro l
  induction l with
  | nil => intro seen; simp [dedupAux]
  | cons a rest ih =>
    intro seen
    rw [dedupAux]
    split
    case isTrue h => exact ih seen
    case isFalse h =>
      obtain ⟨hnd, hdisj⟩ := ih (a.str :: seen)
      refine ⟨?_, ?_⟩
      · simp only [List.map_cons, List.nodup_cons]
        exact ⟨fun hmem => (hdisj a.str hmem) (by simp), hnd⟩
      · intro s hs
        simp only [List.map_cons, List.mem_cons] at hs
        rcases hs with rfl | hs
        · intro hmem
          exact h (List.elem_eq_true_of_mem hmem)
        · intro hmem
          exact (hdisj s hs) (List.mem_cons_of_mem _ hmem)

theorem dedupAux_covers :
    ∀ (l : List GoAddr) (seen : List String) (a : GoAddr), a ∈ l →
      a.str ∈ seen ∨ ∃ b, b ∈ dedupAux seen l ∧ b.str = a.str := by
  intro l
  induction l with
  | nil => intro seen a ha; cases ha
  | cons x rest ih =>
    intro seen a ha
    rw [dedupAux]
    rcases List.mem_cons.mp ha with rfl | ha
    · split
      case isTrue h => exact Or.inl (List.elem_iff.mp h)
      case isFalse h => exact Or.inr ⟨a, by simp, rfl⟩
    · split
      case isTrue h => exact ih seen a ha
      case isFalse h =>
        rcases ih (x.str :: seen) a ha with hmem | ⟨b, hb, hbs⟩
        · rcases List.mem_cons.mp hmem with heq | hmem'
          · exact Or.inr ⟨x, by simp, heq.symm⟩
          · exact Or.inl hmem'
        · exact Or.inr ⟨b, List.mem_cons_of_mem _ hb, hbs⟩

set_option maxRecDepth 4096 in
/-- C3: the packet-filter encoder first deduplicates all source and
destination addresses by canonical address string — the deduplicated list is
a sublist of the sources-then-destinations list (order of first appearance
preserved), has pairwise-distinct canonical strings, and covers every
address of the input — and the fixture list whose unique (host, port) pairs
are (192.168.0.61, 54104) and (::1, 60051) encodes to exactly one
newline-terminated "or"-joined expression line. -/
theorem encodeBPF_dedup_and_fixture :
    (∀ ff : List NetFile,
      (dedupByStr ((Hosts ff).1 ++ (Hosts ff).2)).Sublist ((Hosts ff).1 ++ (Hosts ff).2) ∧
      ((dedupByStr ((Hosts ff).1 ++ (Hosts ff).2)).map GoAddr.str).Nodup ∧
      (∀ a, a ∈ (Hosts ff).1 ++ (Hosts ff).2 →
        ∃ b, b ∈ dedupByStr ((Hosts ff).1 ++ (Hosts ff).2) ∧ b.str = a.str)) ∧
    EncodeBPF netFiles0 =
      "host 192.168.0.61 and port 54104 or host ::1 and port 60051\n" := by
  refine ⟨fun ff => ⟨dedupAux_sublist _ [], (dedupAux_nodup _ []).1, fun a ha => ?_⟩, by decide⟩
  rcases dedupAux_covers ((Hosts ff).1 ++ (Hosts ff).2) [] a ha with hmem | hb
  · cases hmem
  · exact hb

/-- Witness for C3: the coverage clause applied to the fixture's duplicate
destination address. -/
theorem encodeBPF_dedup_and_fixture_witness :
    ∃ b, b ∈ dedupByStr ((Hosts netFiles0).1 ++ (Hosts netFiles0).2) ∧
      b.str = "[::1]:60051" :=
  (encodeBPF_dedup_and_fixture.1 netFiles0).2.2
    { net := "tcp", addr := "[::1]:60051" } (by decide)

/-- C8: for every filter-build outcome and lookup outcome, OpenNetFiles
either fails — returning the empty list together with the failing stage's
error — or succeeds with no error and the complete list mapping every
decoded open file; it never returns a non-empty partial list alongside an
error. -/
theorem openNetFiles_all_or_nothing (P : Type) (buildRgx : Except String P)
    (openNet : P → Except String (List OpenFile)) :
    ((OpenNetFiles P buildRgx openNet).2 ≠ none →
      (OpenNetFiles P buildRgx openNet).1 = []) ∧
    ((OpenNetFiles P buildRgx openNet).2 = none →
      ∃ rgx ll, buildRgx = Except.ok rgx ∧ openNet rgx = Except.ok ll ∧
        (OpenNetFiles P buildRgx openNet).1 = ll.map toNetFile) := by
  cases buildRgx with
  | error e => exact ⟨fun _ => rfl, fun h => by simp [OpenNetFiles] at h⟩
  | ok rgx =>
    cases hlk : openNet rgx with
    | error e =>
      refine ⟨fun _ => ?_, fun h => ?_⟩
      · simp [OpenNetFiles, hlk]
      · simp [OpenNetFiles, hlk] at h
    | ok ll =>
      refine ⟨fun h => ?_, fun _ => ⟨rgx, ll, rfl, hlk, by simp [OpenNetFiles, hlk]⟩⟩
      exact absurd (show (OpenNetFiles P (Except.ok rgx) openNet).2 = none by
        simp [OpenNetFiles, hlk]) h

/-- Witness for C8: a failing external stage yields the empty list, and a
successful one-row decode yields the complete mapped list with no error. -/
theorem openNetFiles_all_or_nothing_witness :
    (OpenNetFiles Unit (Except.ok ())
      (fun _ => Except.error "exit status 1")).1 = [] ∧
    (∃ rgx ll, (Except.ok () : Except String Unit) = Except.ok rgx ∧
      okOneRow rgx = Except.ok ll ∧
      (OpenNetFiles Unit (Except.ok ()) okOneRow).1 = ll.map toNetFile) :=
  ⟨(openNetFiles_all_or_nothing Unit (Except.ok ())
      (fun _ => Except.error "exit status 1")).1 (by decide),
   (openNetFiles_all_or_nothing Unit (Except.ok ()) okOneRow).2 rfl⟩

/-- C9: the filter builder never reports bundle-resolution failure to the
caller (it is a total function into the pattern string): a selector that is
no existing path is returned unmodified, as is an existing path without the
".app" suffix after trimming trailing separators; unreadable metadata or an
empty PID match falls back to the unchanged selector; and a successful
resolution returns the PIDs joined as the disjunction "pid1|pid2|...". -/
theorem prepareNFExpr_fallbacks (statOk : String → Bool)
    (appName : String → Except String String) (pids : String → List String)
    (s : String) :
    (statOk s = false → prepareNFExpr statOk appName pids s = s) ∧
    (statOk s = true → goHasSuffix (goTrimRightChar s '/') ".app" = false →
      prepareNFExpr statOk appName pids s = s) ∧
    (∀ e, statOk s = true → goHasSuffix (goTrimRightChar s '/') ".app" = true →
      appName (goTrimRightChar s '/') = Except.error e →
      prepareNFExpr statOk appName pids s = s) ∧
    (∀ name, statOk s = true → goHasSuffix (goTrimRightChar s '/') ".app" = true →
      appName (goTrimRightChar s '/') = Except.ok name → pids name = [] →
      prepareNFExpr statOk appName pids s = s) ∧
    (∀ name, statOk s = true → goHasSuffix (goTrimRightChar s '/') ".app" = true →
      appName (goTrimRightChar s '/') = Except.ok name → pids name ≠ [] →
      prepareNFExpr statOk appName pids s = String.intercalate "|" (pids name)) := by
  refine ⟨fun h1 => ?_, fun h1 h2 => ?_, fun e h1 h2 h3 => ?_,
    fun name h1 h2 h3 h4 => ?_, fun name h1 h2 h3 h4 => ?_⟩
  · simp [prepareNFExpr, h1]
  · simp [prepareNFExpr, h1, h2]
  · simp [prepareNFExpr, h1, h2, h3]
  · simp [prepareNFExpr, h1, h2, h3, h4]
  · have hlen : (pids name).length ≠ 0 := by
      simpa [List.length_eq_zero] using h4
    simp [prepareNFExpr, h1, h2, h3, hlen]

/-- Witness for C9: a bundle selector with a trailing slash, readable
metadata naming "Spotify" and two matching PIDs resolves to the disjunction
"11778|11780"; the same selector with failing metadata falls back to itself. -/
theorem prepareNFExpr_fallbacks_witness :
    prepareNFExpr (fun _ => true) (fun _ => Except.ok "Spotify")
      (fun _ => ["11778", "11780"]) "/Applications/Spotify.app/" = "11778|11780" ∧
    prepareNFExpr (fun _ => true) (fun _ => Except.error "open Info.plist: no such file")
      (fun _ => ["11778", "11780"]) "/Applications/Spotify.app/" =
      "/Applications/Spotify.app/" :=
  ⟨((prepareNFExpr_fallbacks (fun _ => true) (fun _ => Except.ok "Spotify")
      (fun _ => ["11778", "11780"]) "/Applications/Spotify.app/").2.2.2.2 "Spotify"
      rfl (by decide) rfl (by decide)).trans (by decide),
   (prepareNFExpr_fallbacks (fun _ => true)
      (fun _ => Except.error "open Info.plist: no such file")
      (fun _ => ["11778", "11780"]) "/Applications/Spotify.app/").2.2.1
      "open Info.plist: no such file" rfl (by decide) rfl⟩
